import Mathlib

/-!
Verification of the copilot-sdk core: the token lifecycle manager
(`isTokenValid`, `refreshCopilotToken`, `ensureToken`, `loadAuth`), the
error classifier (`handleError`), the device-authorization polling loop
(`pollAccessToken`), and the streaming response decoder embedded in
`chatStream`.

The TypeScript source is shallowly embedded:
* `CopilotClient` fields become the `ClientState` structure; the persisted
  auth file is the `stored` field (a write to disk is modelled as copying
  the in-memory record there).
* Network I/O is modelled by passing the response the network would
  deliver (`FetchResult`, a script of `AccessTokenResponse`s, ...) as an
  explicit argument.
* JavaScript strings are modelled by `String`; epoch-second instants and
  HTTP statuses by `Nat`.  JavaScript truthiness tests on strings and
  numbers (`!x`) are modelled as `= ""` and `= 0` respectively.
* `JSON.parse` of a stream payload is an external call and is modelled by
  an arbitrary parameter `parse : List Char → Option α`; a thrown parse
  exception is `none`.
-/

/-! ## Data model (src/unnamed/part_000, `AuthData`, lines 37-44) -/

/-- The persisted credential record `AuthData`. -/
structure AuthData where
  githubToken : String
  copilotToken : String
  copilotTokenExpiry : Nat
  refreshIn : Nat
  createdAt : String
  user : Option String
  deriving DecidableEq, Repr

/-- Response of the access-token exchange endpoint (`CopilotTokenResponse`). -/
structure CopilotTokenResponse where
  token : String
  expires_at : Nat
  refresh_in : Nat
  deriving DecidableEq, Repr

/-- The mutable state of one `CopilotClient`: its configuration
(`authFile`, `refreshBuffer`), the in-memory record `authData` and the
content of the auth file on disk (`stored`). -/
structure ClientState where
  authFile : String
  refreshBuffer : Nat
  authData : Option AuthData
  stored : Option AuthData
  deriving DecidableEq, Repr

/-- A JavaScript number as produced by `parseInt`: either an integer or NaN. -/
inductive JsNumber where
  | nan
  | int (n : Int)
  deriving DecidableEq, Repr

/-- The error taxonomy of src/unnamed/part_001 lines 323-346:
`CopilotError` (message, status?, body?), `AuthenticationError` (same
fields) and `RateLimitError` (message, retryAfter?, status fixed 429). -/
inductive SdkError where
  | authError (message : String) (status : Option Nat) (body : Option String)
  | rateLimit (message : String) (retryAfter : Option JsNumber)
  | copilotError (message : String) (status : Option Nat) (body : Option String)
  deriving DecidableEq, Repr

deriving instance DecidableEq for Except

/-- Outcome delivered by the network for the token-exchange fetch. -/
inductive FetchResult where
  | ok (d : CopilotTokenResponse)
  | httpError (status : Nat) (body : String)
  deriving DecidableEq, Repr

/-! ## Constructor (src/unnamed/part_000 lines 55-66) -/

/-- The `CopilotConfig` argument of the constructor. -/
structure CopilotConfigIn where
  authFile : Option String
  refreshBuffer : Option Nat
  deriving DecidableEq, Repr

/-- Error thrown by the constructor when `authFile` is missing. -/
def authFileRequiredError : SdkError :=
  .authError "authFile is required" none none

/-- `new CopilotClient(config)`: requires a truthy `authFile`, defaults
`refreshBuffer` to 60 (`config.refreshBuffer ?? 60`). -/
def newClient (cfg : CopilotConfigIn) : Except SdkError ClientState :=
  match cfg.authFile with
  | none => .error authFileRequiredError
  | some f =>
    if f = "" then .error authFileRequiredError
    else .ok ⟨f, (match cfg.refreshBuffer with | some rb => rb | none => 60), none, none⟩

/-! ## Token validity (src/unnamed/part_000 lines 266-273) -/

/-- `isTokenValid()`: false when `authData?.copilotToken` or
`authData?.copilotTokenExpiry` is falsy, otherwise
`copilotTokenExpiry > now + refreshBuffer`.  `now` (seconds) is passed
explicitly in place of `Math.floor(Date.now() / 1000)`. -/
def isTokenValid (s : ClientState) (now : Nat) : Bool :=
  match s.authData with
  | none => false
  | some a =>
    if a.copilotToken = "" then false
    else if a.copilotTokenExpiry = 0 then false
    else decide (now + s.refreshBuffer < a.copilotTokenExpiry)

/-! ## Refresh (src/unnamed/part_000 lines 278-315) -/

/-- Error thrown when no GitHub token is available for the exchange. -/
def noGithubTokenError : SdkError :=
  .authError "No GitHub token found. Run bun auth.ts first." none none

/-- The three assignments of lines 310-312: overwrite the access-token
fields of the record with the exchange response. -/
def applyRefresh (a : AuthData) (d : CopilotTokenResponse) : AuthData :=
  { a with copilotToken := d.token
           copilotTokenExpiry := d.expires_at
           refreshIn := d.refresh_in }

/-- `refreshCopilotToken()`.  The returned `Bool` records whether the
network exchange was attempted (the `fetch` of line 285).  On success the
in-memory record is updated and `saveAuth()` persists it (`stored`). -/
def refreshCopilotToken (s : ClientState) (net : FetchResult) :
    Bool × Except SdkError ClientState :=
  match s.authData with
  | none => (false, .error noGithubTokenError)
  | some a =>
    if a.githubToken = "" then (false, .error noGithubTokenError)
    else
      match net with
      | .ok d =>
        (true, .ok { s with authData := some (applyRefresh a d)
                            stored := some (applyRefresh a d) })
      | .httpError status body =>
        if status = 404 then
          (true, .error (.authError "Copilot subscription not found" (some status) (some body)))
        else
          (true, .error (.authError "Failed to refresh Copilot token" (some status) (some body)))

/-- `ensureToken()` (lines 357-361): refresh exactly when the validity
check fails. -/
def ensureToken (s : ClientState) (now : Nat) (net : FetchResult) :
    Bool × Except SdkError ClientState :=
  if isTokenValid s now then (false, .ok s) else refreshCopilotToken s net

/-! ## Loading the auth file (src/unnamed/part_000 lines 337-347) -/

/-- Error thrown by `loadAuth` when the file cannot be read or parsed. -/
def authFileMissingError : SdkError :=
  .authError "Auth file not found. Run bun auth.ts to authenticate first." none none

/-- `loadAuth()`: the argument is the parsed content of the auth file,
`none` when the file is absent or unreadable or not valid JSON. -/
def loadAuth (contents : Option AuthData) : Except SdkError AuthData :=
  match contents with
  | some a => .ok a
  | none => .error authFileMissingError

/-! ## HTTP error classification (src/unnamed/part_000 lines 435-451) -/

/-- Byte value classifier for JavaScript whitespace used by `parseInt`
and `String.prototype.trim` (space, tab, LF, VT, FF, CR). -/
def isJsWs (c : Char) : Bool :=
  c.toNat = 32 || c.toNat = 9 || c.toNat = 10 || c.toNat = 11 || c.toNat = 12 || c.toNat = 13

/-- Decimal digit used by `parseInt(_, 10)`. -/
def isDecDigit (c : Char) : Bool :=
  48 ≤ c.toNat && c.toNat ≤ 57

/-- Value of a list of decimal digit characters. -/
def digitsVal (cs : List Char) : Nat :=
  cs.foldl (fun a c => a * 10 + (c.toNat - 48)) 0

/-- `parseInt(s, 10)`: skip leading whitespace, optional sign, read the
leading run of decimal digits, NaN when there is none. -/
def jsParseInt (s : String) : JsNumber :=
  match s.data.dropWhile isJsWs with
  | [] => .nan
  | c :: rest =>
    if c.toNat = 45 then
      match rest.takeWhile isDecDigit with
      | [] => .nan
      | ds => .int (-(digitsVal ds : Int))
    else if c.toNat = 43 then
      match rest.takeWhile isDecDigit with
      | [] => .nan
      | ds => .int (digitsVal ds)
    else
      match (c :: rest).takeWhile isDecDigit with
      | [] => .nan
      | ds => .int (digitsVal ds)

/-- An HTTP response as seen by `handleError`: status, body text and the
raw `retry-after` header (`none` when absent). -/
structure HttpResponse where
  status : Nat
  body : String
  retryAfter : Option String
  deriving DecidableEq, Repr

/-- `handleError(res)` (lines 435-451): 401/403 map to
`AuthenticationError`, 429 to `RateLimitError` with
`retryAfter ? parseInt(retryAfter, 10) : undefined`, anything else to the
generic `CopilotError` with status and raw body. -/
def handleError (res : HttpResponse) : SdkError :=
  if res.status = 401 ∨ res.status = 403 then
    .authError "Authentication failed" (some res.status) (some res.body)
  else if res.status = 429 then
    .rateLimit "Rate limit exceeded"
      (match res.retryAfter with
       | none => none
       | some h => if h = "" then none else some (jsParseInt h))
  else
    .copilotError ("API error: " ++ toString res.status) (some res.status) (some res.body)

/-! ## Device-authorization polling (src/auth.ts lines 80-126) -/

/-- A response of the access-token polling endpoint
(`AccessTokenResponse` in src/auth.ts lines 33-39). -/
structure AccessTokenResponse where
  access_token : Option String
  error : Option String
  error_description : Option String
  deriving DecidableEq, Repr

/-- Terminal outcome of the polling loop; `diverged` marks a run whose
scripted responses were exhausted while the loop would keep polling. -/
inductive PollOutcome where
  | granted (token : String)
  | failed (message : String)
  | diverged
  deriving DecidableEq, Repr

/-- The `error` classification of one poll iteration (src/auth.ts lines
108-124), reached when `data.access_token` is falsy.  `next` is the
result of continuing the loop on the remaining script.  The named errors
are compared by strict equality in source order; afterwards the bare
`if (data.error)` treats a missing or empty `error` as falsy, so the loop
falls through and keeps polling. -/
def pollStepError (sleepDuration : Nat) (r : AccessTokenResponse)
    (next : List Nat × PollOutcome) : List Nat × PollOutcome :=
  match r.error with
  | some e =>
    if e = "authorization_pending" then
      (sleepDuration :: next.1, next.2)
    else if e = "slow_down" then
      (sleepDuration :: 5000 :: next.1, next.2)
    else if e = "expired_token" then
      ([sleepDuration], .failed "Device code expired. Please run auth again.")
    else if e = "" then
      (sleepDuration :: next.1, next.2)
    else
      ([sleepDuration],
       .failed (match r.error_description with
                | some d => if d = "" then e else d
                | none => e))
  | none => (sleepDuration :: next.1, next.2)

/-- One poll iteration: `if (data.access_token)` (src/auth.ts line 104)
is a truthiness test, so an empty-string token counts as absent and
falls through to the error classification. -/
def pollStep (sleepDuration : Nat) (r : AccessTokenResponse)
    (next : List Nat × PollOutcome) : List Nat × PollOutcome :=
  match r.access_token with
  | some t =>
    if t = "" then pollStepError sleepDuration r next
    else ([sleepDuration], .granted t)
  | none => pollStepError sleepDuration r next

/-- The body of `pollAccessToken`: one iteration sleeps `sleepDuration`
milliseconds, polls (consuming the next scripted response) and classifies
it exactly in source order: truthy `access_token`, then
`authorization_pending`, `slow_down` (extra fixed `sleep(5000)`),
`expired_token`, any other truthy error; a response with neither token
nor truthy error just loops.  The first component of the result is the
sequence of sleeps performed, in milliseconds and in order. -/
def pollLoop (sleepDuration : Nat) :
    List AccessTokenResponse → List Nat × PollOutcome
  | [] => ([sleepDuration], .diverged)
  | r :: rs => pollStep sleepDuration r (pollLoop sleepDuration rs)

/-- `pollAccessToken(deviceCode, interval)`:
`sleepDuration = (interval + 1) * 1000` (line 84). -/
def pollAccessToken (interval : Nat) (script : List AccessTokenResponse) :
    List Nat × PollOutcome :=
  pollLoop ((interval + 1) * 1000) script

/-! ## Stream decoding (src/unnamed/part_000, `chatStream`, lines 128-157)

The generator keeps a `TextDecoder` (incremental UTF-8 decode with state
carried across `decode(value, stream: true)` calls) and a text `buffer`.
Each arriving byte chunk is decoded and appended to the buffer, the
buffer is split on newlines, the trailing partial line is retained, and
every complete line is processed: non `data: ` lines are skipped, the
payload after the prefix is trimmed, `[DONE]` terminates the generator,
an empty payload is skipped, otherwise the payload is parsed and yielded
(parse failures are swallowed).

Text is modelled as `List Char`, a byte chunk as `List Nat`. -/

/-- State of the incremental UTF-8 decoder (`TextDecoder`): number of
continuation bytes still expected and the code-point bits accumulated so
far. -/
structure U8State where
  rem : Nat
  acc : Nat
  deriving DecidableEq, Repr

/-- The replacement character U+FFFD emitted for invalid byte sequences. -/
def replChar : Char := Char.ofNat 0xFFFD

/-- Classify a byte arriving in clean decoder state: ASCII, stray
continuation byte (replacement), or the lead byte of a 2-, 3- or 4-byte
sequence. -/
def u8Lead (b : Nat) : U8State × List Char :=
  if b < 128 then (⟨0, 0⟩, [Char.ofNat b])
  else if b < 192 then (⟨0, 0⟩, [replChar])
  else if b < 224 then (⟨1, b % 32⟩, [])
  else if b < 240 then (⟨2, b % 16⟩, [])
  else if b < 248 then (⟨3, b % 8⟩, [])
  else (⟨0, 0⟩, [replChar])

/-- One step of the incremental UTF-8 decoder.  In the middle of a
sequence a continuation byte extends the accumulator (completing the
character when it was the last expected byte); a non-continuation byte
aborts the sequence with a replacement character and is reprocessed as a
lead byte. -/
def u8Step (st : U8State) (b : Nat) : U8State × List Char :=
  if st.rem = 0 then u8Lead b
  else if 128 ≤ b ∧ b < 192 then
    if st.rem = 1 then (⟨0, 0⟩, [Char.ofNat (st.acc * 64 + b % 64)])
    else (⟨st.rem - 1, st.acc * 64 + b % 64⟩, [])
  else
    ((u8Lead b).1, replChar :: (u8Lead b).2)

/-- `decoder.decode(bytes, stream: true)`: run the decoder over a byte
chunk, returning the new decoder state and the decoded text. -/
def u8Run (st : U8State) : List Nat → U8State × List Char
  | [] => (st, [])
  | b :: bs =>
    ((u8Run (u8Step st b).1 bs).1, (u8Step st b).2 ++ (u8Run (u8Step st b).1 bs).2)

/-- `buffer.split("\n")` followed by `buffer = lines.pop()`, in one step:
the complete (newline-terminated) lines and the trailing partial line. -/
def splitLines : List Char → List (List Char) × List Char
  | [] => ([], [])
  | c :: cs =>
    if c = '\n' then
      ([] :: (splitLines cs).1, (splitLines cs).2)
    else
      match (splitLines cs).1 with
      | [] => ([], c :: (splitLines cs).2)
      | l :: ls => ((c :: l) :: ls, (splitLines cs).2)

/-- `"data: "`, the event-data frame marker. -/
def dataHeader : List Char := ['d', 'a', 't', 'a', ':', ' ']

/-- `"[DONE]"`, the sentinel terminator payload. -/
def doneText : List Char := ['[', 'D', 'O', 'N', 'E', ']']

/-- `payload.trim()`: strip leading and trailing whitespace. -/
def trimText (t : List Char) : List Char :=
  ((t.dropWhile isJsWs).reverse.dropWhile isJsWs).reverse

/-- What processing one complete line does to the generator. -/
inductive LineResult (α : Type) where
  | skip
  | done
  | chunk (c : α)
  deriving DecidableEq, Repr

/-- Process one complete line (lines 145-154): skip non-frame lines,
strip the 6-character prefix, trim, `[DONE]` terminates, empty payload is
skipped, otherwise parse and yield on success, skip on parse failure. -/
def processLine (parse : List Char → Option α) (line : List Char) : LineResult α :=
  if line.take 6 ≠ dataHeader then .skip
  else
    if trimText (line.drop 6) = doneText then .done
    else if trimText (line.drop 6) = [] then .skip
    else
      match parse (trimText (line.drop 6)) with
      | some c => .chunk c
      | none => .skip

/-- Process the complete lines of one chunk in order, accumulating
yielded chunks; a `[DONE]` returns from the generator at once (the rest
of the batch is not examined) and is reported in the `Bool`. -/
def processLines (parse : List Char → Option α) :
    List (List Char) → List α × Bool
  | [] => ([], false)
  | l :: ls =>
    match processLine parse l with
    | .done => ([], true)
    | .skip => processLines parse ls
    | .chunk c => (c :: (processLines parse ls).1, (processLines parse ls).2)

/-- The whole state of the `chatStream` decoding loop between two chunk
arrivals: the `TextDecoder` state, the text buffer, and whether the
generator has returned (saw `[DONE]`). -/
structure DState where
  u8 : U8State
  buffer : List Char
  halted : Bool
  deriving DecidableEq, Repr

/-- The state at the top of the read loop (line 133-134). -/
def initState : DState := ⟨⟨0, 0⟩, [], false⟩

/-- One iteration of the read loop (lines 136-156) on an arriving byte
chunk: no effect if the generator already returned; otherwise decode,
append to the buffer, split off the complete lines and process them. -/
def feedChunk (parse : List Char → Option α) (st : DState) (bytes : List Nat) :
    DState × List α :=
  if st.halted then (st, [])
  else
    (⟨(u8Run st.u8 bytes).1,
      (splitLines (st.buffer ++ (u8Run st.u8 bytes).2)).2,
      (processLines parse (splitLines (st.buffer ++ (u8Run st.u8 bytes).2)).1).2⟩,
     (processLines parse (splitLines (st.buffer ++ (u8Run st.u8 bytes).2)).1).1)

/-- Run the read loop from a given state over a list of arriving chunks,
collecting everything the generator yields. -/
def runFrom (parse : List Char → Option α) (st : DState) :
    List (List Nat) → List α
  | [] => []
  | c :: cs => (feedChunk parse st c).2 ++ runFrom parse (feedChunk parse st c).1 cs

/-- The full decoded output of `chatStream` for a response body arriving
as the given sequence of byte chunks. -/
def runDecoder (parse : List Char → Option α) (chunks : List (List Nat)) : List α :=
  runFrom parse initState chunks

/-! ## Helper lemmas: token validity and refresh -/

/-- Characterization of `isTokenValid` when a record is loaded. -/
theorem isTokenValid_eq {s : ClientState} {a : AuthData} (now : Nat)
    (hA : s.authData = some a) :
    isTokenValid s now =
      (decide (a.copilotToken ≠ "") && decide (now + s.refreshBuffer < a.copilotTokenExpiry)) := by
  unfold isTokenValid
  rw [hA]
  dsimp only
  split_ifs with h1 h2
  · simp [h1]
  · simp [h2]
  · simp [h1]

/-- Equation for `refreshCopilotToken` on the success path. -/
theorem refreshCopilotToken_ok {s : ClientState} {a : AuthData} (d : CopilotTokenResponse)
    (hA : s.authData = some a) (hg : a.githubToken ≠ "") :
    refreshCopilotToken s (.ok d) =
      (true, .ok { s with authData := some (applyRefresh a d)
                          stored := some (applyRefresh a d) }) := by
  unfold refreshCopilotToken
  rw [hA]
  dsimp only
  rw [if_neg hg]

/-- Equation for `refreshCopilotToken` when the identity token is absent. -/
theorem refreshCopilotToken_noToken {s : ClientState} (net : FetchResult)
    (h : ∀ a, s.authData = some a → a.githubToken = "") :
    refreshCopilotToken s net = (false, .error noGithubTokenError) := by
  unfold refreshCopilotToken
  cases hA : s.authData with
  | none => rfl
  | some a =>
    dsimp only
    rw [if_pos (h a hA)]

/-! ## Helper lemmas: parseInt on decimal headers -/

/-- `s` is the plain decimal representation of `n`: nonempty, all digits,
with value `n`. -/
def decimalRepOf (s : String) (n : Nat) : Prop :=
  s.data ≠ [] ∧ (∀ c ∈ s.data, isDecDigit c = true) ∧ digitsVal s.data = n

theorem isJsWs_of_digit {c : Char} (h : isDecDigit c = true) : isJsWs c = false := by
  simp only [isDecDigit, Bool.and_eq_true, decide_eq_true_eq] at h
  simp only [isJsWs, Bool.or_eq_false_iff, decide_eq_false_iff_not]
  omega

theorem takeWhile_eq_self_of_all {α : Type} {p : α → Bool} :
    ∀ {l : List α}, (∀ c ∈ l, p c = true) → l.takeWhile p = l
  | [], _ => rfl
  | a :: l, h => by
    have ha := h a (List.mem_cons_self ..)
    simp only [List.takeWhile_cons, ha, if_true]
    exact congrArg (a :: ·) (takeWhile_eq_self_of_all fun c hc => h c (List.mem_cons_of_mem _ hc))

theorem jsParseInt_decimal {s : String} {n : Nat} (h : decimalRepOf s n) :
    jsParseInt s = .int n := by
  obtain ⟨hne, hdig, hval⟩ := h
  cases hd : s.data with
  | nil => exact absurd hd hne
  | cons c cs =>
    have hc : isDecDigit c = true := hdig c (by rw [hd]; exact List.mem_cons_self ..)
    have hc48 : 48 ≤ c.toNat ∧ c.toNat ≤ 57 := by
      simpa [isDecDigit, Bool.and_eq_true, decide_eq_true_eq] using hc
    have htw : (c :: cs).takeWhile isDecDigit = c :: cs :=
      takeWhile_eq_self_of_all fun x hx => hdig x (by rw [hd]; exact hx)
    have h45 : ¬(c.toNat = 45) := by omega
    have h43 : ¬(c.toNat = 43) := by omega
    have step : jsParseInt s = .int (digitsVal (c :: cs)) := by
      unfold jsParseInt
      rw [hd, List.dropWhile_cons, isJsWs_of_digit hc]
      simp only [Bool.false_eq_true, if_false]
      rw [if_neg h45, if_neg h43, htw]
    rw [step, ← hd, hval]

/-! ## Claim theorems: token lifecycle -/

/-- C1: `isTokenValid` is true iff an access token is present (truthy)
and its absolute expiry satisfies `copilotTokenExpiry > now + skew`,
where the skew is the configured refresh buffer; at the boundary instant
`expiry = now + skew` it is false; and a client constructed without a
`refreshBuffer` gets the default skew 60. -/
theorem isTokenValid_spec (s : ClientState) (now : Nat) (f : String) (hf : f ≠ "") :
    (isTokenValid s now = true ↔
      ∃ a, s.authData = some a ∧ a.copilotToken ≠ "" ∧
        now + s.refreshBuffer < a.copilotTokenExpiry)
  ∧ (∀ a, s.authData = some a → a.copilotTokenExpiry = now + s.refreshBuffer →
      isTokenValid s now = false)
  ∧ newClient ⟨some f, none⟩ = .ok ⟨f, 60, none, none⟩ := by
  refine ⟨?_, ?_, ?_⟩
  · cases hA : s.authData with
    | none => simp [isTokenValid, hA]
    | some a =>
      rw [isTokenValid_eq now hA]
      simp only [hA, Bool.and_eq_true, decide_eq_true_eq, Option.some.injEq, ne_eq]
      constructor
      · rintro ⟨h1, h2⟩
        exact ⟨a, rfl, h1, h2⟩
      · rintro ⟨b, hb, h1, h2⟩
        cases hb
        exact ⟨h1, h2⟩
  · intro a hA hb
    rw [isTokenValid_eq now hA, hb]
    simp
  · simp [newClient, hf]

/-- C1 witness: a concrete client with a loaded token whose expiry
exceeds now + 60 is reported valid. -/
theorem isTokenValid_spec_witness :
    isTokenValid ⟨"a", 60, some ⟨"g", "tok", 1000, 600, "c", none⟩, none⟩ 100 = true :=
  (isTokenValid_spec ⟨"a", 60, some ⟨"g", "tok", 1000, 600, "c", none⟩, none⟩ 100 "a"
      (by decide)).1.mpr ⟨⟨"g", "tok", 1000, 600, "c", none⟩, rfl, by decide, by decide⟩

/-- C2: a successful refresh overwrites exactly the three access-token
fields of the record (access token, absolute expiry, refresh-interval
hint); identity token, principal and creation timestamp are unchanged;
and the full updated record is persisted to the store. -/
theorem refreshCopilotToken_frame (s : ClientState) (a : AuthData)
    (d : CopilotTokenResponse) (s2 : ClientState)
    (hA : s.authData = some a)
    (h : (refreshCopilotToken s (.ok d)).2 = .ok s2) :
    s2.authData = some (applyRefresh a d)
  ∧ (applyRefresh a d).githubToken = a.githubToken
  ∧ (applyRefresh a d).user = a.user
  ∧ (applyRefresh a d).createdAt = a.createdAt
  ∧ (applyRefresh a d).copilotToken = d.token
  ∧ (applyRefresh a d).copilotTokenExpiry = d.expires_at
  ∧ (applyRefresh a d).refreshIn = d.refresh_in
  ∧ s2.stored = some (applyRefresh a d)
  ∧ s2.authFile = s.authFile ∧ s2.refreshBuffer = s.refreshBuffer := by
  by_cases hg : a.githubToken = ""
  · rw [refreshCopilotToken_noToken (.ok d) (fun b hb => by
        rw [hA] at hb; cases hb; exact hg)] at h
    cases h
  · rw [refreshCopilotToken_ok d hA hg] at h
    simp only [Except.ok.injEq] at h
    rw [← h]
    exact ⟨rfl, rfl, rfl, rfl, rfl, rfl, rfl, rfl, rfl, rfl⟩

/-- C2 witness: the frame conditions evaluated on a concrete record and
exchange response. -/
theorem refreshCopilotToken_frame_witness :
    ((refreshCopilotToken ⟨"f", 60, some ⟨"g", "old", 5, 1, "c", some "u"⟩, none⟩
        (.ok ⟨"new", 999, 12⟩)).2 = .ok ⟨"f", 60,
          some (applyRefresh ⟨"g", "old", 5, 1, "c", some "u"⟩ ⟨"new", 999, 12⟩),
          some (applyRefresh ⟨"g", "old", 5, 1, "c", some "u"⟩ ⟨"new", 999, 12⟩)⟩)
  ∧ ((⟨"f", 60,
        some (applyRefresh ⟨"g", "old", 5, 1, "c", some "u"⟩ ⟨"new", 999, 12⟩),
        some (applyRefresh ⟨"g", "old", 5, 1, "c", some "u"⟩ ⟨"new", 999, 12⟩)⟩ : ClientState).authData
      = some (applyRefresh ⟨"g", "old", 5, 1, "c", some "u"⟩ ⟨"new", 999, 12⟩)
    ∧ (applyRefresh ⟨"g", "old", 5, 1, "c", some "u"⟩ ⟨"new", 999, 12⟩).githubToken = "g"
    ∧ (applyRefresh ⟨"g", "old", 5, 1, "c", some "u"⟩ ⟨"new", 999, 12⟩).user = some "u"
    ∧ (applyRefresh ⟨"g", "old", 5, 1, "c", some "u"⟩ ⟨"new", 999, 12⟩).createdAt = "c") := by
  constructor
  · decide
  · have h := refreshCopilotToken_frame ⟨"f", 60, some ⟨"g", "old", 5, 1, "c", some "u"⟩, none⟩
      ⟨"g", "old", 5, 1, "c", some "u"⟩ ⟨"new", 999, 12⟩
      ⟨"f", 60, some (applyRefresh ⟨"g", "old", 5, 1, "c", some "u"⟩ ⟨"new", 999, 12⟩),
        some (applyRefresh ⟨"g", "old", 5, 1, "c", some "u"⟩ ⟨"new", 999, 12⟩)⟩ rfl (by decide)
    exact ⟨h.1, h.2.1, h.2.2.1, h.2.2.2.1⟩

/-- C3: when the validity check passes, `ensureToken` leaves the record
unchanged and performs no refresh; when it fails and the provider grants
a new token with a future expiry, it performs exactly one refresh
exchange, persists the updated record, and the new expiry is in the
future. -/
theorem ensureToken_spec (s : ClientState) (a : AuthData) (now : Nat)
    (d : CopilotTokenResponse) :
    (∀ net, isTokenValid s now = true → ensureToken s now net = (false, .ok s))
  ∧ (isTokenValid s now = false → s.authData = some a → a.githubToken ≠ "" →
      now < d.expires_at →
      ensureToken s now (.ok d) =
        (true, .ok { s with authData := some (applyRefresh a d)
                            stored := some (applyRefresh a d) })
      ∧ now < (applyRefresh a d).copilotTokenExpiry) := by
  constructor
  · intro net hv
    simp [ensureToken, hv]
  · intro hv hA hg he
    constructor
    · unfold ensureToken
      rw [hv]
      simp only [Bool.false_eq_true, if_false]
      exact refreshCopilotToken_ok d hA hg
    · simpa [applyRefresh] using he

/-- C3 witness: with an expired record (expiry in the past of `now`) and
a granted exchange, `ensureToken` refreshes once and the stored record
has a future expiry. -/
theorem ensureToken_spec_witness :
    ensureToken ⟨"f", 60, some ⟨"g", "old", 999, 1, "c", none⟩, none⟩ 1000 (.ok ⟨"new", 2000, 600⟩) =
      (true, .ok { (⟨"f", 60, some ⟨"g", "old", 999, 1, "c", none⟩, none⟩ : ClientState) with
                    authData := some (applyRefresh ⟨"g", "old", 999, 1, "c", none⟩ ⟨"new", 2000, 600⟩)
                    stored := some (applyRefresh ⟨"g", "old", 999, 1, "c", none⟩ ⟨"new", 2000, 600⟩) })
  ∧ 1000 < (applyRefresh ⟨"g", "old", 999, 1, "c", none⟩ ⟨"new", 2000, 600⟩).copilotTokenExpiry :=
  (ensureToken_spec ⟨"f", 60, some ⟨"g", "old", 999, 1, "c", none⟩, none⟩
      ⟨"g", "old", 999, 1, "c", none⟩ 1000 ⟨"new", 2000, 600⟩).2
    (by decide) rfl (by decide) (by decide)

/-! ## Claim theorems: polling loop -/

/-- C7: the wait before every regular poll attempt is
`(interval + 1) * 1000` milliseconds; a `slow_down` response inserts one
fixed extra `5000` millisecond back-off and does not change the interval
used afterwards.  On the scripted response sequence
pending, pending, slow_down, granted the loop performs exactly the sleep
trace `[d, d, d, 5000, d]` with `d = (interval + 1) * 1000` — one long
back-off, right after the `slow_down` — and terminates returning the
granted token, consuming the responses in order.  The granted token must
be truthy (nonempty): the source's `if (data.access_token)` would treat
an empty-string token as absent and keep polling. -/
theorem pollAccessToken_schedule (interval : Nat) (tok : String) (htok : tok ≠ "") :
    pollAccessToken interval
      [⟨none, some "authorization_pending", none⟩,
       ⟨none, some "authorization_pending", none⟩,
       ⟨none, some "slow_down", none⟩,
       ⟨some tok, none, none⟩] =
    ([(interval + 1) * 1000, (interval + 1) * 1000, (interval + 1) * 1000, 5000,
      (interval + 1) * 1000], .granted tok) := by
  simp [pollAccessToken, pollLoop, pollStep, pollStepError, htok]

/-- C7 witness: with provider interval 5 seconds and the nonempty token
string, the trace is three 6-second waits, the 5-second back-off, one
more 6-second wait, then the grant. -/
theorem pollAccessToken_schedule_witness :
    pollAccessToken 5
      [⟨none, some "authorization_pending", none⟩,
       ⟨none, some "authorization_pending", none⟩,
       ⟨none, some "slow_down", none⟩,
       ⟨some "tok", none, none⟩] =
    ([6000, 6000, 6000, 5000, 6000], .granted "tok") :=
  pollAccessToken_schedule 5 "tok" (by decide)

/-! ## Claim theorems: missing identity token (C8, corrected) -/

/-- C8 counterexample: a credential state with an empty identity token
but a still-valid access token.  `ensureToken` does not fail with an
authentication error there: the validity check passes, so it returns the
record unchanged (and attempts no network call), contradicting the claim
that `ensureValid` fails whenever no identity token is present. -/
theorem ensureToken_noIdentity_counterexample :
    (Option.all (fun a => decide (a.githubToken = ""))
        (⟨"f", 60, some ⟨"", "tok", 1000000, 600, "c", none⟩, none⟩ : ClientState).authData = true)
  ∧ ensureToken ⟨"f", 60, some ⟨"", "tok", 1000000, 600, "c", none⟩, none⟩ 0 (.ok ⟨"t", 5, 5⟩)
      = (false, .ok ⟨"f", 60, some ⟨"", "tok", 1000000, 600, "c", none⟩, none⟩) := by
  decide

/-- C8 (amended): if no identity token is present (no record loaded, or
an empty `githubToken`), any refresh attempt fails with
`AuthenticationError` before any network call; consequently
`ensureToken` fails the same way whenever its validity check fails — in
particular when the credential file was absent at load time, which
already surfaces as an `AuthenticationError` from `loadAuth`. -/
theorem refresh_noIdentity_amended (s : ClientState) (net : FetchResult) (now : Nat)
    (h : ∀ a, s.authData = some a → a.githubToken = "") :
    refreshCopilotToken s net = (false, .error noGithubTokenError)
  ∧ (isTokenValid s now = false → ensureToken s now net = (false, .error noGithubTokenError))
  ∧ loadAuth none = .error authFileMissingError := by
  refine ⟨refreshCopilotToken_noToken net h, ?_, rfl⟩
  intro hv
  unfold ensureToken
  rw [hv]
  simp only [Bool.false_eq_true, if_false]
  exact refreshCopilotToken_noToken net h

/-- C8 witness: with no record loaded at all (absent credential file),
both the refresh and `ensureToken` fail with the authentication error and
report that no network call was made. -/
theorem refresh_noIdentity_amended_witness :
    refreshCopilotToken ⟨"f", 60, none, none⟩ (.ok ⟨"t", 100, 600⟩)
      = (false, .error noGithubTokenError)
  ∧ ensureToken ⟨"f", 60, none, none⟩ 0 (.ok ⟨"t", 100, 600⟩)
      = (false, .error noGithubTokenError)
  ∧ loadAuth none = .error authFileMissingError :=
  ⟨(refresh_noIdentity_amended ⟨"f", 60, none, none⟩ (.ok ⟨"t", 100, 600⟩) 0
      (fun a ha => by cases ha)).1,
   (refresh_noIdentity_amended ⟨"f", 60, none, none⟩ (.ok ⟨"t", 100, 600⟩) 0
      (fun a ha => by cases ha)).2.1 (by decide),
   (refresh_noIdentity_amended ⟨"f", 60, none, none⟩ (.ok ⟨"t", 100, 600⟩) 0
      (fun a ha => by cases ha)).2.2⟩

/-! ## Claim theorems: HTTP error classification -/

/-- C9: a 429 response maps to `RateLimitError`; when the `retry-after`
header carries the decimal representation of `n` seconds the retry hint
is `n`, and when the header is absent the hint is absent; 401 and 403 map
to `AuthenticationError`; any other (non-success) status maps to the
generic error carrying the status code and raw body. -/
theorem handleError_spec (res : HttpResponse) (s : String) (n : Nat) :
    (res.status = 429 → res.retryAfter = some s → decimalRepOf s n →
      handleError res = .rateLimit "Rate limit exceeded" (some (.int n)))
  ∧ (res.status = 429 → res.retryAfter = none →
      handleError res = .rateLimit "Rate limit exceeded" none)
  ∧ (res.status = 401 ∨ res.status = 403 →
      handleError res = .authError "Authentication failed" (some res.status) (some res.body))
  ∧ (res.status ≠ 401 → res.status ≠ 403 → res.status ≠ 429 →
      handleError res = .copilotError ("API error: " ++ toString res.status)
        (some res.status) (some res.body)) := by
  refine ⟨?_, ?_, ?_, ?_⟩
  · intro h429 hhdr hdec
    have hne : s ≠ "" := by
      intro he
      exact hdec.1 (by rw [he])
    unfold handleError
    rw [hhdr, h429]
    norm_num
    exact ⟨hne, jsParseInt_decimal hdec⟩
  · intro h429 hhdr
    unfold handleError
    rw [hhdr, h429]
    norm_num
  · intro h
    unfold handleError
    rw [if_pos h]
  · intro h401 h403 h429
    unfold handleError
    rw [if_neg (by simp [h401, h403]), if_neg h429]

/-- C9 witness: a 429 response with header value 30 carries retry hint
30; one without the header carries no hint; 401 and 404 map to the other
two error classes. -/
theorem handleError_spec_witness :
    handleError ⟨429, "slow down please", some "30"⟩
      = .rateLimit "Rate limit exceeded" (some (.int 30))
  ∧ handleError ⟨429, "slow down please", none⟩
      = .rateLimit "Rate limit exceeded" none
  ∧ handleError ⟨401, "denied", none⟩
      = .authError "Authentication failed" (some 401) (some "denied")
  ∧ handleError ⟨404, "nope", none⟩
      = .copilotError ("API error: " ++ toString 404) (some 404) (some "nope") :=
  ⟨(handleError_spec ⟨429, "slow down please", some "30"⟩ "30" 30).1 rfl rfl
      ⟨by decide, by decide, by decide⟩,
   (handleError_spec ⟨429, "slow down please", none⟩ "30" 30).2.1 rfl rfl,
   (handleError_spec ⟨401, "denied", none⟩ "30" 30).2.2.1 (Or.inl rfl),
   (handleError_spec ⟨404, "nope", none⟩ "30" 30).2.2.2 (by decide) (by decide) (by decide)⟩

/-! ## Helper lemmas: the stream decoder -/

/-- Incremental UTF-8 decoding composes over concatenation of byte
chunks: decoding `a ++ b` in one call equals decoding `a`, then decoding
`b` from the resulting decoder state. -/
theorem u8Run_append (st : U8State) (a b : List Nat) :
    u8Run st (a ++ b) =
      ((u8Run (u8Run st a).1 b).1, (u8Run st a).2 ++ (u8Run (u8Run st a).1 b).2) := by
  induction a generalizing st with
  | nil => simp [u8Run]
  | cons x xs ih =>
    simp only [List.cons_append, u8Run, List.append_eq, ih, List.append_assoc]

theorem splitLines_cons_nl (cs : List Char) :
    splitLines ('\n' :: cs) = ([] :: (splitLines cs).1, (splitLines cs).2) := by
  rw [splitLines.eq_2, if_pos rfl]

theorem splitLines_cons_ne (c : Char) (cs : List Char) (hc : c ≠ '\n') :
    splitLines (c :: cs) =
      (match (splitLines cs).1 with
       | [] => ([], c :: (splitLines cs).2)
       | l :: ls => ((c :: l) :: ls, (splitLines cs).2)) := by
  rw [splitLines.eq_2, if_neg hc]

/-- Buffer-and-split composes over concatenation of arriving text: the
complete lines of `a ++ b` are the complete lines of `a` followed by the
complete lines of the retained remainder of `a` glued to `b`, and the
final remainders agree. -/
theorem splitLines_append (a b : List Char) :
    splitLines (a ++ b) =
      ((splitLines a).1 ++ (splitLines ((splitLines a).2 ++ b)).1,
       (splitLines ((splitLines a).2 ++ b)).2) := by
  induction a with
  | nil => simp [splitLines]
  | cons c cs ih =>
    by_cases hc : c = '\n'
    · subst hc
      rw [List.cons_append, splitLines_cons_nl cs, splitLines_cons_nl (cs ++ b), ih]
      simp
    · rw [List.cons_append, splitLines_cons_ne c (cs ++ b) hc, splitLines_cons_ne c cs hc, ih]
      cases h1 : (splitLines cs).1 with
      | nil =>
        cases h2 : (splitLines ((splitLines cs).2 ++ b)).1 with
        | nil => simp [h1, h2, splitLines_cons_ne c _ hc]
        | cons m ms => simp [h1, h2, splitLines_cons_ne c _ hc]
      | cons l ls => simp [h1, splitLines_cons_ne c _ hc]

/-- Processing a batch of complete lines composes over concatenation: a
`[DONE]` inside the first batch discards the rest, otherwise the second
batch is processed from where the first ended. -/
theorem processLines_append {α : Type} (parse : List Char → Option α)
    (L1 L2 : List (List Char)) :
    processLines parse (L1 ++ L2) =
      (if (processLines parse L1).2 then ((processLines parse L1).1, true)
       else ((processLines parse L1).1 ++ (processLines parse L2).1,
             (processLines parse L2).2)) := by
  induction L1 with
  | nil => simp [processLines]
  | cons l ls ih =>
    cases hp : processLine parse l with
    | done => simp [processLines, hp]
    | skip => simp [processLines, hp, ih]
    | chunk c =>
      simp only [List.cons_append, processLines, hp, ih]
      by_cases hh : (processLines parse ls).2
      · simp [hh, ih]
      · simp [hh, ih]

/-- A generator that already returned produces nothing on any later
arrivals. -/
theorem runFrom_halted {α : Type} (parse : List Char → Option α)
    (st : DState) (cs : List (List Nat)) (h : st.halted = true) :
    runFrom parse st cs = [] := by
  induction cs with
  | nil => rfl
  | cons c cs ih =>
    unfold runFrom feedChunk
    rw [h]
    simp only [if_true]
    simpa [feedChunk, h] using ih

/-- Feeding one chunk and then another yields the same output as feeding
their concatenation, and the resulting loop states agree (exactly, or
both generators have returned). -/
theorem feedChunk_append {α : Type} (parse : List Char → Option α)
    (st : DState) (c1 c2 : List Nat) :
    (feedChunk parse st (c1 ++ c2)).2
      = (feedChunk parse st c1).2 ++ (feedChunk parse (feedChunk parse st c1).1 c2).2
  ∧ ((feedChunk parse st (c1 ++ c2)).1 = (feedChunk parse (feedChunk parse st c1).1 c2).1
     ∨ ((feedChunk parse st (c1 ++ c2)).1.halted = true
        ∧ (feedChunk parse (feedChunk parse st c1).1 c2).1.halted = true)) := by
  by_cases hh : st.halted = true
  · simp [feedChunk, hh]
  · simp only [feedChunk, hh, Bool.false_eq_true, if_false]
    rw [u8Run_append, ← List.append_assoc, splitLines_append, processLines_append]
    cases h1 : (processLines parse (splitLines (st.buffer ++ (u8Run st.u8 c1).2)).1).2 with
    | true => simp
    | false => simp


/-- Two consecutive chunk arrivals produce the same total output as their
concatenation arriving at once. -/
theorem runFrom_merge {α : Type} (parse : List Char → Option α)
    (st : DState) (c1 c2 : List Nat) (rest : List (List Nat)) :
    runFrom parse st (c1 :: c2 :: rest) = runFrom parse st ((c1 ++ c2) :: rest) := by
  have h := feedChunk_append parse st c1 c2
  show (feedChunk parse st c1).2 ++
      ((feedChunk parse (feedChunk parse st c1).1 c2).2 ++
        runFrom parse (feedChunk parse (feedChunk parse st c1).1 c2).1 rest) =
    (feedChunk parse st (c1 ++ c2)).2 ++ runFrom parse (feedChunk parse st (c1 ++ c2)).1 rest
  rw [h.1, List.append_assoc]
  rcases h.2 with heq | ⟨hl, hr⟩
  · rw [heq]
  · rw [runFrom_halted parse _ rest hl, runFrom_halted parse _ rest hr]

/-- One leading chunk plus the flattened rest equals the chunk list:
the output is invariant under re-chunking of the byte stream. -/
theorem runFrom_flatten_cons {α : Type} (parse : List Char → Option α) :
    ∀ (cs : List (List Nat)) (c : List Nat) (st : DState),
      runFrom parse st (c :: cs) = runFrom parse st [c ++ cs.flatten] := by
  intro cs
  induction cs with
  | nil => intro c st; simp
  | cons c2 rest ih =>
    intro c st
    rw [runFrom_merge parse st c c2 rest, ih (c ++ c2) st]
    simp [List.append_assoc]

/-- A list without a newline splits into no complete line and itself as
the retained remainder. -/
theorem splitLines_no_nl : ∀ (l : List Char), '\n' ∉ l → splitLines l = ([], l)
  | [], _ => rfl
  | c :: cs, h => by
    have hc : c ≠ '\n' := fun he => h (he ▸ List.mem_cons_self ..)
    rw [splitLines_cons_ne c cs hc,
        splitLines_no_nl cs (fun hm => h (List.mem_cons_of_mem _ hm))]

/-! ## Claim theorems: the stream decoder -/

/-- C4: for every byte stream and every way of splitting it into chunk
boundaries — including splits inside a multi-byte UTF-8 character or in
the middle of an event-data frame — the decoder yields exactly the same
sequence of chunks as when the whole stream arrives as one chunk: the
text-decoding state and the trailing partial line are carried across
arrivals. -/
theorem chatStream_chunkSplit_invariant {α : Type} (parse : List Char → Option α)
    (chunks : List (List Nat)) :
    runDecoder parse chunks = runDecoder parse [chunks.flatten] := by
  cases chunks with
  | nil => rfl
  | cons c rest => exact runFrom_flatten_cons parse rest c initState

/-- C5: once a `[DONE]` payload is processed the generator returns: the
remaining complete lines of the same physical chunk produce nothing (the
batch result is the output before the sentinel, with the halted flag
set), and a halted decoder produces nothing on any chunk that arrives
later. -/
theorem chatStream_doneHalts {α : Type} (parse : List Char → Option α)
    (L1 L2 : List (List Char)) (l : List Char) (o1 : List α)
    (st : DState) (c : List Nat) (rest : List (List Nat))
    (hdone : processLine parse l = .done)
    (h1 : processLines parse L1 = (o1, false))
    (hh : st.halted = true) :
    processLines parse (L1 ++ l :: L2) = (o1, true)
  ∧ feedChunk parse st c = (st, [])
  ∧ runFrom parse st rest = [] := by
  refine ⟨?_, by simp [feedChunk, hh], runFrom_halted parse st rest hh⟩
  rw [processLines_append, h1]
  simp [processLines, hdone]

/-- C5 witness: a batch containing a valid frame, the sentinel, then
another valid frame yields only the first chunk and halts; a halted
decoder ignores later bytes. -/
theorem chatStream_doneHalts_witness :
    processLines (fun t => if t = ['x'] then some 1 else none)
        (["data: x".data] ++ "data: [DONE]".data :: ["data: x".data]) = ([1], true)
  ∧ feedChunk (fun t => if t = ['x'] then some 1 else none)
        ⟨⟨0, 0⟩, [], true⟩ ("data: x\n".data.map Char.toNat) = (⟨⟨0, 0⟩, [], true⟩, [])
  ∧ runFrom (fun t => if t = ['x'] then some 1 else none)
        ⟨⟨0, 0⟩, [], true⟩ [("data: x\n".data.map Char.toNat)] = [] :=
  chatStream_doneHalts (fun t => if t = ['x'] then some 1 else none)
    ["data: x".data] ["data: x".data] "data: [DONE]".data [1]
    ⟨⟨0, 0⟩, [], true⟩ ("data: x\n".data.map Char.toNat)
    [("data: x\n".data.map Char.toNat)]
    (by decide) (by decide) rfl

/-- C6: a malformed event-data payload (the parser rejects it) is
silently dropped: the line is skipped and the stream of every other line
before and after it is produced unchanged, in order. -/
theorem chatStream_malformedDropped {α : Type} (parse : List Char → Option α)
    (l : List Char) (L1 L2 : List (List Char))
    (hpref : l.take 6 = dataHeader)
    (hparse : parse (trimText (l.drop 6)) = none)
    (hnd : trimText (l.drop 6) ≠ doneText) :
    processLine parse l = .skip
  ∧ processLines parse (L1 ++ l :: L2) = processLines parse (L1 ++ L2) := by
  have hskip : processLine parse l = .skip := by
    unfold processLine
    rw [hpref]
    by_cases hz : trimText (l.drop 6) = []
    · simp [hz, hnd]
      decide
    · simp [hz, hnd, hparse]
  refine ⟨hskip, ?_⟩
  rw [processLines_append, processLines_append]
  have : processLines parse (l :: L2) = processLines parse L2 := by
    simp [processLines, hskip]
  rw [this]

/-- C6 witness: a malformed payload between two valid frames is dropped
and both valid frames are produced in order. -/
theorem chatStream_malformedDropped_witness :
    processLine (fun t => if t = "one".data then some 1 else
        if t = "two".data then some 2 else none) "data: ???".data = .skip
  ∧ processLines (fun t => if t = "one".data then some 1 else
        if t = "two".data then some 2 else none)
      (["data: one".data] ++ "data: ???".data :: ["data: two".data])
    = processLines (fun t => if t = "one".data then some 1 else
        if t = "two".data then some 2 else none)
      (["data: one".data] ++ ["data: two".data]) :=
  chatStream_malformedDropped
    (fun t => if t = "one".data then some 1 else
        if t = "two".data then some 2 else none)
    "data: ???".data ["data: one".data] ["data: two".data]
    (by decide) (by decide) (by decide)

/-- C10: when the byte source ends while the buffer holds a trailing
line not terminated by a newline, that line is never processed: a run
whose decoded text contains no newline produces no chunks at all, even
when the buffered text is a well-formed event-data frame the parser
would accept. -/
theorem chatStream_trailingLineDropped {α : Type} (parse : List Char → Option α)
    (st : DState) (cs : List (List Nat))
    (hb : '\n' ∉ st.buffer)
    (ht : '\n' ∉ (u8Run st.u8 cs.flatten).2) :
    runFrom parse st cs = [] := by
  cases cs with
  | nil => rfl
  | cons c rest =>
    rw [runFrom_flatten_cons parse rest c st]
    by_cases hh : st.halted = true
    · show (feedChunk parse st (c ++ rest.flatten)).2 ++
        runFrom parse (feedChunk parse st (c ++ rest.flatten)).1 [] = []
      simp [feedChunk, hh, runFrom]
    · have htext : '\n' ∉ (u8Run st.u8 (c ++ rest.flatten)).2 := by
        simpa using ht
      have hsplit : splitLines (st.buffer ++ (u8Run st.u8 (c ++ rest.flatten)).2) =
          ([], st.buffer ++ (u8Run st.u8 (c ++ rest.flatten)).2) := by
        apply splitLines_no_nl
        intro hm
        rcases List.mem_append.mp hm with h | h
        exacts [hb h, htext h]
      show (feedChunk parse st (c ++ rest.flatten)).2 ++
        runFrom parse (feedChunk parse st (c ++ rest.flatten)).1 [] = []
      simp [feedChunk, hh, hsplit, runFrom, processLines]

/-- C10 witness: a stream that delivers the well-formed, parseable frame
`data: one` split over two chunks but never sends a newline produces no
chunks. -/
theorem chatStream_trailingLineDropped_witness :
    runFrom (fun t => if t = "one".data then some 1 else none) initState
      ["data: o".data.map Char.toNat, "ne".data.map Char.toNat] = [] :=
  chatStream_trailingLineDropped (fun t => if t = "one".data then some 1 else none)
    initState ["data: o".data.map Char.toNat, "ne".data.map Char.toNat]
    (by decide) (by decide)
